import Mathlib

/-!
# Verification of the r3k holdings-extraction engine

Shallow embedding of `src/r3k/parse_new_ncsr.py` and `src/r3k/parse_old_ncsr.py`.

Strings are modelled as `List Char` (Python `str`).  Raw filing bytes are also
modelled as `List Char`.  External collaborators are modelled at their
interface:

* `BeautifulSoup` tag trees are modelled structurally: a page carries the text
  of its `<p>` tags, its tables, and each table carries the texts of its rows'
  `<td>` cells, its `<p>` / `<td>` cell texts, and its `prettify()` rendering.
* `pandas.Timestamp` is treated as an opaque wrapper: a report date is kept as
  its source string.  `pandas` column sums are modelled as exact integer sums.
* Regular expressions are modelled by their matching semantics on the fixed
  patterns occurring in the source (documented at each definition).

A Python function raising (`assert`, `ValueError`, `KeyError`, `IndexError`,
`TypeError`) is modelled as returning `Except Err`.
-/

deriving instance DecidableEq for Except

namespace R3k

abbrev Str := List Char

abbrev Err := String

/-- Convert a Lean string literal to the `List Char` model. -/
def str (s : String) : Str := s.data

/-- Python whitespace (`\s` of `re` on `str`, and `str.strip`/`str.isspace`),
restricted to the code points that can occur in these filings. -/
def isPyWs (c : Char) : Bool :=
  c = ' ' || c = '\t' || c = '\n' || c = '\x0b' || c = '\x0c' || c = '\r' ||
  c = '\x85' || c = '\xa0'

/-- Python `str.lower`, on the ASCII letters (all the patterns compared
case-insensitively in the source are ASCII apart from `®`, which `lower`
leaves unchanged). -/
def toLowerChar (c : Char) : Char :=
  if 'A' ≤ c && c ≤ 'Z' then Char.ofNat (c.toNat + 32) else c

def lowerStr (s : Str) : Str := s.map toLowerChar

/-- Strip trailing whitespace. -/
def rstripWs : Str → Str
  | [] => []
  | c :: rest =>
    match rstripWs rest with
    | [] => if isPyWs c then [] else [c]
    | r => c :: r

/-- Python `str.strip()`: drop leading and trailing whitespace. -/
def pyStrip (s : Str) : Str := rstripWs (s.dropWhile isPyWs)

/-- Python `val.replace(",", "")`. -/
def removeCommas (s : Str) : Str := s.filter (fun c => decide (c ≠ ','))

/-- Python `re.sub("\s+", "", val)`. -/
def removeAllWs (s : Str) : Str := s.filter (fun c => !(isPyWs c))

/-- Python `re.sub(r"\s+", " ", val)`: collapse every maximal whitespace run
to a single space. -/
def collapseWs : Str → Str
  | [] => []
  | [c] => if isPyWs c then [' '] else [c]
  | a :: b :: rest =>
    if isPyWs a && isPyWs b then collapseWs (b :: rest)
    else (if isPyWs a then ' ' else a) :: collapseWs (b :: rest)

/-- `scrub_text` (identical in both source files): replace `\xa0` by a space,
collapse whitespace runs, replace `\x92` by an apostrophe. -/
def scrubText (s : Str) : Str :=
  (collapseWs (s.map fun c => if c = '\xa0' then ' ' else c)).map
    fun c => if c = '\x92' then '\'' else c

/-- `scrub_tag`: `scrub_text(val.text.strip()).strip()`, with a cell modelled
by its raw text. -/
def scrubTag (s : Str) : Str := pyStrip (scrubText (pyStrip s))

/-- `empty_tag`. -/
def emptyTag (s : Str) : Bool := decide (scrubTag s = [])

/-- Does the subject start with the (nonempty) pattern `p :: ps`? -/
def leadsWith : Str → Str → Bool
  | [], _ => true
  | _ :: _, [] => false
  | a :: as, b :: bs => decide (a = b) && leadsWith as bs

/-- Does the subject contain the pattern as a contiguous substring?
Models `pat in s` / `re.search` of a plain literal. -/
def containsSub (pat : Str) : Str → Bool
  | [] => leadsWith pat []
  | c :: rest => leadsWith pat (c :: rest) || containsSub pat rest

/-- Python `re.sub` of the literal pattern `p :: ps` by `repl`: replace each
leftmost non-overlapping occurrence.  The `skip` counter consumes the
remaining matched characters after an occurrence, keeping the recursion
structural. -/
def replGo (p : Char) (ps repl : Str) (skip : Nat) : Str → Str
  | [] => []
  | c :: rest =>
    match skip with
    | k + 1 => replGo p ps repl k rest
    | 0 =>
      if leadsWith (p :: ps) (c :: rest) then
        repl ++ replGo p ps repl ps.length rest
      else c :: replGo p ps repl 0 rest

def replaceAllNE (p : Char) (ps : Str) (repl : Str) (s : Str) : Str :=
  replGo p ps repl 0 s

/-- Python `s.split(sep)` for the literal separator `p :: ps`, with the same
structural `skip` scheme. -/
def splitGo (p : Char) (ps : Str) (skip : Nat) : Str → List Str
  | [] => [[]]
  | c :: rest =>
    match skip with
    | k + 1 => splitGo p ps k rest
    | 0 =>
      if leadsWith (p :: ps) (c :: rest) then
        [] :: splitGo p ps ps.length rest
      else
        match splitGo p ps 0 rest with
        | [] => [[c]]
        | t :: ts => (c :: t) :: ts

def splitOnNE (p : Char) (ps : Str) (s : Str) : List Str :=
  splitGo p ps 0 s

/-- Python `re.sub` of a single-character pattern by a replacement string. -/
def subChar (c : Char) (repl : Str) (s : Str) : Str :=
  (s.map fun a => if a = c then repl else [a]).flatten

/-- Suffix of the subject after (and not including) the first occurrence of
the nonempty literal pattern, if any. -/
def afterFirst (pat : Str) : Str → Option Str
  | [] => if leadsWith pat [] then some (([] : Str).drop pat.length) else none
  | c :: rest =>
    if leadsWith pat (c :: rest) then some ((c :: rest).drop pat.length)
    else afterFirst pat rest

/-- Matching semantics of `re.match(".*w₁.*w₂...*wₙ.*", s, re.DOTALL)` for
literal words `wᵢ`: the words occur in order as disjoint substrings. -/
def inOrderContains : List Str → Str → Bool
  | [], _ => true
  | p :: ps, s =>
    match afterFirst p s with
    | none => false
    | some s' => inOrderContains ps s'

/-- Matching semantics of the anchored regex `w₁\s+w₂\s+...\s+wₙ` at the start
of the subject: the words in order, separated by nonempty whitespace runs. -/
def startsToken : List Str → Str → Bool
  | [], _ => true
  | [w], s => leadsWith w s
  | w :: ws, s =>
    leadsWith w s &&
      (let rest := s.drop w.length
       decide (rest.takeWhile isPyWs ≠ []) && startsToken ws (rest.dropWhile isPyWs))

/-- `re.match(".*w₁\s+...\s+wₙ.*", s, re.DOTALL)`: the whitespace-separated
token occurs somewhere in the subject. -/
def containsToken (words : List Str) : Str → Bool
  | [] => startsToken words []
  | c :: rest => startsToken words (c :: rest) || containsToken words rest

/-- `re.match("[0-9]+", s)` succeeds iff the subject starts with an ASCII
digit. -/
def firstIsDigit (s : Str) : Bool :=
  match s with
  | [] => false
  | c :: _ => c.isDigit

/-- `is_int` (identical in both source files): the comma-stripped, scrubbed
cell starts with a digit.  (`re.match("[0-9]+", scrubbed)` is a match at the
start of the string.) -/
def isInt (s : Str) : Bool := firstIsDigit (scrubText (removeCommas s))

/-- Validity of a digit group for Python `int()`: nonempty, starts and ends
with an ASCII digit, only digits and single `_` separators in between. -/
def noDoubleUnderscore : Str → Bool
  | '_' :: '_' :: _ => false
  | _ :: rest => noDoubleUnderscore rest
  | [] => true

def pyDigitsOk (l : Str) : Bool :=
  match l with
  | [] => false
  | c :: _ =>
    c.isDigit && ((l.getLast?.map Char.isDigit).getD false) &&
      l.all (fun c => c.isDigit || decide (c = '_')) && noDoubleUnderscore l

def digitsToNat (l : Str) : Nat :=
  l.foldl (fun n c => if c.isDigit then n * 10 + (c.toNat - 48) else n) 0

/-- Python `int()` on an already whitespace-free string: optional sign, then
a digit group (possibly with `_` separators). -/
def intLiteral? (s : Str) : Option Int :=
  match s with
  | '+' :: rest => if pyDigitsOk rest then some (digitsToNat rest) else none
  | '-' :: rest => if pyDigitsOk rest then some (-(digitsToNat rest : Int)) else none
  | _ => if pyDigitsOk s then some ((digitsToNat s : Nat) : Int) else none

/-- The normalized cell text used by `parse_int`:
`val.strip().replace(",", "")` then `re.sub("\s+", "", val)`. -/
def normCell (s : Str) : Str := removeAllWs (removeCommas (pyStrip s))

/-- `parse_int` (identical in both source files): `None` for the recognized
blank placeholders, otherwise Python `int()` (a `ValueError` is an error). -/
def parseInt (s : Str) : Except Err (Option Int) :=
  let v := normCell s
  if v = str "\x96" ∨ v = str "\x97" ∨ v = str "(e)" ∨ v = str "(f)" then .ok none
  else
    match intLiteral? v with
    | some n => .ok (some n)
    | none => .error "ValueError: invalid literal for int()"

/-- `normalize_sector` of `parse_new_ncsr.py`: drop `(continued)`, and if the
label contains `---` keep only the part before the last `---` separator. -/
def normalizeSectorNew (s : Str) : Str :=
  let s1 := pyStrip (replaceAllNE '(' (str "continued)") [] s)
  let s2 :=
    if containsSub (str "---") s1 then
      pyStrip (List.intercalate (str "---") ((splitOnNE '-' (str "--") s1).dropLast))
    else s1
  pyStrip s2

/-- `normalize_sector` of `parse_old_ncsr.py`: additionally rewrites `\x96`,
`\x97`, `&nbsp;` and `—`, and when no `---` separator is present drops the
last space-separated word instead. -/
def normalizeSectorOld (s : Str) : Str :=
  let s1 := pyStrip (replaceAllNE '(' (str "continued)") [] s)
  let s2 := subChar '\x96' (str "---") s1
  let s3 := subChar '\x97' (str "---") s2
  let s4 := replaceAllNE '&' (str "nbsp;") (str " ") s3
  let s5 := subChar '—' (str "---") s4
  let s6 :=
    if containsSub (str "---") s5 then
      pyStrip (List.intercalate (str "---") ((splitOnNE '-' (str "--") s5).dropLast))
    else if containsSub (str " ") s5 then
      pyStrip (List.intercalate (str " ") ((splitOnNE ' ' [] s5).dropLast))
    else s5
  pyStrip s6

/-! ## Structural model of BeautifulSoup pages and tables -/

/-- One markup table: its `prettify()` rendering, the texts of its `<p>` and
`<td>` descendants, and its rows (`<tr>`, each the raw texts of its `<td>`
cells). -/
structure Table where
  rendered : Str
  ps : List Str
  tds : List Str
  trs : List (List Str)
deriving DecidableEq, Repr

/-- A page of a new-format filing: the texts of the nonscript `<p>` tags that
precede the first table (used by the version-1 header), and its tables. -/
structure PageNew where
  preTablePs : List Str
  tables : List Table
deriving DecidableEq, Repr

/-- A page of an old-format filing: the texts of all its `<p>` tags and its
tables. -/
structure PageOld where
  ps : List Str
  tables : List Table
deriving DecidableEq, Repr

/-- `HoldingRecord` (`SECTOR`, `COMPANY_NAME`, `SHARES`, `VALUE`). -/
structure Holding where
  sector : Option Str
  companyName : Str
  shares : Option Int
  value : Option Int
deriving DecidableEq, Repr

/-- Reported sector subtotals: a Python `dict` keyed by sector label, whose
values are `parse_int` results (possibly `None`). -/
abbrev TotalsMap := List (Str × Option Int)

/-- Derived sector sums: a Python `dict` with integer values. -/
abbrev DerivedMap := List (Str × Int)

/-- Python `d[k]` as an `Option`. -/
def alookup {A : Type} (d : List (Str × A)) (k : Str) : Option A :=
  match d with
  | [] => none
  | kv :: rest => if kv.1 = k then some kv.2 else alookup rest k

/-- Python `k in d`. -/
def ahasKey {A : Type} (d : List (Str × A)) (k : Str) : Bool :=
  match d with
  | [] => false
  | kv :: rest => decide (kv.1 = k) || ahasKey rest k

/-- Python `d[k] = v`: update in place, or append preserving insertion
order. -/
def aset {A : Type} (d : List (Str × A)) (k : Str) (v : A) : List (Str × A) :=
  match d with
  | [] => [(k, v)]
  | kv :: rest => if kv.1 = k then (k, v) :: rest else kv :: aset rest k v

/-- Python `d.pop(k)` (the removal part). -/
def aerase {A : Type} (d : List (Str × A)) (k : Str) : List (Str × A) :=
  match d with
  | [] => []
  | kv :: rest => if kv.1 = k then rest else kv :: aerase rest k

/-- Python `{**a, **b}`. -/
def amerge {A : Type} (a b : List (Str × A)) : List (Str × A) :=
  b.foldl (fun d kv => aset d kv.1 kv.2) a

/-- `d.get(k, 0)` style lookup. -/
def agetD (d : DerivedMap) (k : Str) : Int := (alookup d k).getD 0

/-! ## Row extraction -/

/-- The row-accumulation loop at the top of `parse_holdings_column` (both
generations): walk the `<tr>`s, starting a fresh row whenever the previous
one is nonempty, and keep only non-`empty_tag` `<td>`s. -/
def buildRowsAux (acc : List (List Str)) (cur : List Str) :
    List (List Str) → List (List Str)
  | [] => acc ++ [cur]
  | tr :: trs =>
    let tds := tr.filter (fun td => !(emptyTag td))
    if cur = [] then buildRowsAux acc (cur ++ tds) trs
    else buildRowsAux (acc ++ [cur]) tds trs

def buildRows (trs : List (List Str)) : List (List Str) := buildRowsAux [] [] trs

/-- `parse_row`: drop cells whose scrubbed text is `""` or `"$"`, and return
the remaining cells' `scrub_text`. -/
def parseRow (row : List Str) : List Str :=
  (row.filter (fun td => decide (scrubTag td ≠ [] ∧ scrubTag td ≠ str "$"))).map scrubText

/-! ## Row classifier / sector state machine -/

/-- The result dictionary of `parse_holdings_column`, which is also the state
threaded through the row loop. -/
structure ColState where
  holdings : List Holding
  sectorTotals : TotalsMap
  hitTotalCommonStocks : Bool
  currentSector : Option Str
deriving DecidableEq, Repr

/-- The accepted footnote markers: `re.search` of
`(\(a\)|\(b\)|\(c\)|\(d\)|\(e\)|\(f\))` with `re.IGNORECASE`. -/
def footnoteOk (s : Str) : Bool :=
  [str "(a)", str "(b)", str "(c)", str "(d)", str "(e)", str "(f)"].any
    (fun p => containsSub p (lowerStr s))

/-- Does the (new-format-substituted resp. old-format-normalized) sector label
match `.*common.*stock` (`re.match`, `DOTALL | IGNORECASE`)? -/
def commonStockLabel (s : Str) : Bool :=
  inOrderContains [str "common", str "stock"] (lowerStr s)

/-- The row loop of `parse_holdings_column` in `parse_new_ncsr.py`
(from `for i, row in enumerate(rows[start:])`). -/
def colLoopNew (st : ColState) : List (List Str) → Except Err ColState
  | [] => .ok st
  | row :: rest =>
    match parseRow row with
    | [] => colLoopNew st rest
    | [x] =>
      if isInt x then
        match st.currentSector with
        | none => .error "AssertionError: current_sector is None at sector total"
        | some cs =>
          if ahasKey st.sectorTotals cs then
            .error "AssertionError: duplicate sector subtotal"
          else
            match parseInt x with
            | .error e => .error e
            | .ok v =>
              let st' := { st with sectorTotals := aset st.sectorTotals cs v }
              if st'.hitTotalCommonStocks then .ok st' else colLoopNew st' rest
      else
        let cs := subChar '\x97' (str "---") x
        let hit' := st.hitTotalCommonStocks || commonStockLabel cs
        colLoopNew { st with currentSector := some cs, hitTotalCommonStocks := hit' } rest
    | [_, b] =>
      match parseInt b with
      | .error e => .error e
      | .ok v =>
        .ok { st with
              sectorTotals := aset st.sectorTotals (str "Total Common Stocks") v,
              hitTotalCommonStocks := true }
    | [a, b, c] =>
      match parseInt b with
      | .error e => .error e
      | .ok sh =>
        match parseInt c with
        | .error e => .error e
        | .ok v =>
          colLoopNew
            { st with holdings :=
                st.holdings ++ [⟨st.currentSector, pyStrip a, sh, v⟩] } rest
    | [a, b, c, d] =>
      if footnoteOk d then
        match parseInt b with
        | .error e => .error e
        | .ok sh =>
          match parseInt c with
          | .error e => .error e
          | .ok v =>
            colLoopNew
              { st with holdings :=
                  st.holdings ++ [⟨st.currentSector, pyStrip a, sh, v⟩] } rest
      else .error "AssertionError: unrecognized footnote marker"
    | _ => .error "ValueError: unexpected row format"

/-- The row loop of `parse_holdings_column` in `parse_old_ncsr.py`: identical
except that a new sector label is normalized with the old `normalize_sector`
instead of the `\x97` substitution. -/
def colLoopOld (st : ColState) : List (List Str) → Except Err ColState
  | [] => .ok st
  | row :: rest =>
    match parseRow row with
    | [] => colLoopOld st rest
    | [x] =>
      if isInt x then
        match st.currentSector with
        | none => .error "AssertionError: current_sector is None at sector total"
        | some cs =>
          if ahasKey st.sectorTotals cs then
            .error "AssertionError: duplicate sector subtotal"
          else
            match parseInt x with
            | .error e => .error e
            | .ok v =>
              let st' := { st with sectorTotals := aset st.sectorTotals cs v }
              if st'.hitTotalCommonStocks then .ok st' else colLoopOld st' rest
      else
        let cs := normalizeSectorOld x
        let hit' := st.hitTotalCommonStocks || commonStockLabel cs
        colLoopOld { st with currentSector := some cs, hitTotalCommonStocks := hit' } rest
    | [_, b] =>
      match parseInt b with
      | .error e => .error e
      | .ok v =>
        .ok { st with
              sectorTotals := aset st.sectorTotals (str "Total Common Stocks") v,
              hitTotalCommonStocks := true }
    | [a, b, c] =>
      match parseInt b with
      | .error e => .error e
      | .ok sh =>
        match parseInt c with
        | .error e => .error e
        | .ok v =>
          colLoopOld
            { st with holdings :=
                st.holdings ++ [⟨st.currentSector, pyStrip a, sh, v⟩] } rest
    | [a, b, c, d] =>
      if footnoteOk d then
        match parseInt b with
        | .error e => .error e
        | .ok sh =>
          match parseInt c with
          | .error e => .error e
          | .ok v =>
            colLoopOld
              { st with holdings :=
                  st.holdings ++ [⟨st.currentSector, pyStrip a, sh, v⟩] } rest
      else .error "AssertionError: unrecognized footnote marker"
    | _ => .error "ValueError: unexpected row format"

/-- The `Security` / `Shares` / `Value` header validation at the top of
`parse_holdings_column` (asserts, with an `IndexError` when the header row is
too short). -/
def checkSecSharesValue (r0 : List Str) : Except Err Unit :=
  match r0 with
  | [] => .error "IndexError: rows[0][0]"
  | c0 :: rest0 =>
    if scrubTag c0 = str "Security" then
      match rest0 with
      | [] => .error "IndexError: rows[0][1]"
      | c1 :: rest1 =>
        if scrubTag c1 = str "Shares" then
          match rest1 with
          | [] => .error "IndexError: rows[0][2]"
          | c2 :: _ =>
            if scrubTag c2 = str "Value" then .ok ()
            else .error "AssertionError: header Value"
        else .error "AssertionError: header Shares"
    else .error "AssertionError: header Security"

/-- The `rows[1]` "common stocks" section-label validation used for the first
column of the first page. -/
def checkCommonStocksRow (rows1 : List (List Str)) : Except Err (List (List Str)) :=
  match rows1 with
  | [] => .error "IndexError: rows[1]"
  | r1 :: rest2 =>
    match r1 with
    | [cell] =>
      if containsSub (str "common stocks") (lowerStr cell) then .ok rest2
      else .error "AssertionError: first data row is not common stocks"
    | _ => .error "AssertionError: len(rows[1]) == 1"

/-- `parse_holdings_column` of `parse_new_ncsr.py`. -/
def parseHoldingsColumnNew (col : Table) (isFirstColumn : Bool)
    (currentSector : Option Str) : Except Err ColState :=
  match buildRows col.trs with
  | [] => .error "unreachable: buildRows is never empty"
  | r0 :: restRows =>
    match checkSecSharesValue r0 with
    | .error e => .error e
    | .ok _ =>
      if isFirstColumn then
        match checkCommonStocksRow restRows with
        | .error e => .error e
        | .ok rest2 => colLoopNew ⟨[], [], false, currentSector⟩ rest2
      else colLoopNew ⟨[], [], false, currentSector⟩ restRows

/-- `parse_holdings_column` of `parse_old_ncsr.py`, with its extra
`check_header` parameter (`start = 0` when the header is not checked). -/
def parseHoldingsColumnOld (col : Table) (isFirstColumn : Bool)
    (currentSector : Option Str) (checkHeader : Bool) : Except Err ColState :=
  match buildRows col.trs with
  | [] => .error "unreachable: buildRows is never empty"
  | r0 :: restRows =>
    if checkHeader then
      match checkSecSharesValue r0 with
      | .error e => .error e
      | .ok _ =>
        if isFirstColumn then
          match checkCommonStocksRow restRows with
          | .error e => .error e
          | .ok rest2 => colLoopOld ⟨[], [], false, currentSector⟩ rest2
        else colLoopOld ⟨[], [], false, currentSector⟩ restRows
    else colLoopOld ⟨[], [], false, currentSector⟩ (r0 :: restRows)

/-! ## Page filters and segmentation (`extract_pages`) -/

/-- `.*schedule.*of.*investments.*russell.*3000` (`DOTALL | IGNORECASE`). -/
def soiNew (s : Str) : Bool :=
  inOrderContains
    [str "schedule", str "of", str "investments", str "russell", str "3000"]
    (lowerStr s)

/-- `.*summary.*schedule.*of.*investments.*` (`DOTALL | IGNORECASE`). -/
def smrPat (s : Str) : Bool :=
  inOrderContains [str "summary", str "schedule", str "of", str "investments"]
    (lowerStr s)

/-- `.*notes\s+to\s+financial\s+statements.*` (`DOTALL | IGNORECASE`). -/
def ntsPat (s : Str) : Bool :=
  containsToken [str "notes", str "to", str "financial", str "statements"]
    (lowerStr s)

/-- `see.{0,7}notes\s+to\s+financial\s+statements` matching at one
position of an already lowered subject. -/
def stnAt (s : Str) : Bool :=
  leadsWith (str "see") s &&
    (List.range 8).any
      (fun g =>
        startsToken [str "notes", str "to", str "financial", str "statements"]
          ((s.drop 3).drop g))

def stnScan : Str → Bool
  | [] => false
  | c :: rest => stnAt (c :: rest) || stnScan rest

/-- `.*see.{0,7}notes\s+to\s+financial\s+statements.*`
(`DOTALL | IGNORECASE`). -/
def stnPat (s : Str) : Bool := stnScan (lowerStr s)

/-- `.*schedule\s+of\s+investments.*` (`DOTALL | IGNORECASE`). -/
def soiOld (s : Str) : Bool :=
  containsToken [str "schedule", str "of", str "investments"] (lowerStr s)

/-- `.*russell\s+3000\s+index\s+fund.*` (`DOTALL | IGNORECASE`). -/
def r3kOld (s : Str) : Bool :=
  containsToken [str "russell", str "3000", str "index", str "fund"] (lowerStr s)

/-- `.*total.*common.*stocks.*` (`DOTALL | IGNORECASE`). -/
def cmnOld (s : Str) : Bool :=
  inOrderContains [str "total", str "common", str "stocks"] (lowerStr s)

/-- The per-page keep condition of `extract_pages` in `parse_new_ncsr.py`:
keep schedule pages, drop summary schedules, drop notes pages unless they
carry a "see notes to financial statements" cross-reference. -/
def keepPageNew (text : Str) : Bool :=
  soiNew text && !(smrPat text) && !(ntsPat text && !(stnPat text))

/-- The relevance filter of `extract_pages` in `parse_new_ncsr.py`, on the
pages' plain texts. -/
def extractPagesFilterNew (texts : List Str) : List Str :=
  texts.filter keepPageNew

/-- The `store` trigger of `extract_pages` in `parse_old_ncsr.py`. -/
def goodOldPage (t : Str) : Bool := soiOld t && r3kOld t && !(smrPat t)

/-- The stateful relevance filter of `extract_pages` in `parse_old_ncsr.py`:
start storing at the first definitive schedule page, stop after the page
matching `.*total.*common.*stocks.*`. -/
def oldFilterLoop (store : Bool) : List Str → List Str
  | [] => []
  | t :: rest =>
    let store' := store || goodOldPage t
    if store' then
      if cmnOld t then [t] else t :: oldFilterLoop store' rest
    else oldFilterLoop store' rest

def extractPagesFilterOld (texts : List Str) : List Str := oldFilterLoop false texts

/-- `buf[start:end]` for the page segmentation. -/
def sliceBuf (buf : Str) (a b : Nat) : Str := (buf.drop a).take (b - a)

/-- Python `sorted(matches, key=lambda x: x.start())` on the match start
offsets. -/
def sortedOffsets (offsets : List Nat) : List Nat :=
  offsets.insertionSort (· ≤ ·)

/-- The page-cutting step of `extract_pages` (identical in both source
files): sort all marker match offsets ascending and cut the buffer at
consecutive offsets.  The marker discovery itself (`get_page_separators`
plus `re.finditer` over both attribute-quoting variants) is abstracted as
the `offsets` argument. -/
def segmentPagesAt (buf : Str) (offsets : List Nat) : List Str :=
  let sorted := sortedOffsets offsets
  (sorted.zip sorted.tail).map (fun p => sliceBuf buf p.1 p.2)

/-! ## Version classifier and header extraction (new format) -/

/-- `get_subversion` of `parse_new_ncsr.py`. -/
def getSubversion (page : PageNew) : Except Err Nat :=
  match page.tables with
  | [t1, _, _] => if soiNew (pyStrip t1.rendered) then .ok 2 else .ok 1
  | [_, _, _, _] => .ok 2
  | ts =>
    .error ("ValueError: unexpected number of tables in r3k holdings first page "
      ++ toString ts.length)

/-- The decision rule of the spec: a pure function of the table count and the
first table's rendered content. -/
def subversionSpec (n : Nat) (firstRendered : Option Str) : Except Err Nat :=
  if n = 3 then
    match firstRendered with
    | some r => if soiNew (pyStrip r) then .ok 2 else .ok 1
    | none =>
      .error ("ValueError: unexpected number of tables in r3k holdings first page "
        ++ toString n)
  else if n = 4 then .ok 2
  else
    .error ("ValueError: unexpected number of tables in r3k holdings first page "
      ++ toString n)

/-- `extract_holdings_columns` of `parse_new_ncsr.py`. -/
def extractHoldingsColumns (page : PageNew) (version : Nat) : Except Err (List Table) :=
  if version = 1 then .ok (page.tables.take 2)
  else if version = 2 then .ok ((page.tables.drop 1).take 2)
  else .error "ValueError: unknown holdings version"

/-- `re.match(".*schedule of investments.*", title, DOTALL | IGNORECASE)`. -/
def titleOkNew (t : Str) : Bool :=
  containsSub (str "schedule of investments") (lowerStr t)

/-- The accepted fund-name spellings of `parse_new_ncsr.py` (compared on the
lower-cased name). -/
def nameOkNew (e : Str) : Bool :=
  decide (lowerStr e = str "ishares® russell 3000 etf") ||
  decide (lowerStr e = str "ishares® russell 3000 index fund") ||
  decide (lowerStr e = str "ishares russell 3000 index fund")

/-- The extraction part of `parse_header_info` in `parse_new_ncsr.py`:
produce `(title, etf_name, report_date)` according to the sub-version. -/
def extractHeaderNew (page : PageNew) (version : Nat) : Except Err (Str × Str × Str) :=
  if version = 1 then
    match page.preTablePs.filter (fun p => !(emptyTag p)) with
    | t0 :: t1 :: t2 :: _ => .ok (scrubTag t0, scrubTag t1, scrubTag t2)
    | _ => .error "IndexError: tags"
  else if version = 2 then
    match page.tables with
    | [] => .error "IndexError: tables[0]"
    | header :: _ =>
      match header.ps.filter (fun p => !(emptyTag p)) with
      | v0 :: v1 :: v2 :: _ => .ok (scrubTag v0, scrubTag v2, scrubTag v1)
      | _ =>
        match header.tds.filter (fun p => !(emptyTag p)) with
        | v0 :: v1 :: v2 :: _ => .ok (scrubTag v0, scrubTag v1, scrubTag v2)
        | _ => .error "IndexError: header cells"
  else .error "ValueError: unknown holdings version"

/-- `parse_header_info` of `parse_new_ncsr.py`. -/
def parseHeaderInfoNew (page : PageNew) (version : Nat) : Except Err (Str × Str) :=
  match extractHeaderNew page version with
  | .error e => .error e
  | .ok (title, etf, date) =>
    if titleOkNew title then
      if nameOkNew etf then .ok (lowerStr etf, date)
      else .error "AssertionError: unexpected etf name"
    else .error "AssertionError: title is not schedule of investments"

/-- `re.match("schedule\s+of\s+investments", soi, IGNORECASE)`: anchored at
the start of the title. -/
def titleOkOld (t : Str) : Bool :=
  startsToken [str "schedule", str "of", str "investments"] (lowerStr t)

/-- `re.match("iSHARES® RUSSELL 3000 INDEX FUND", etf, IGNORECASE)`: the
lower-cased name must begin with the accepted spelling. -/
def nameOkOld (e : Str) : Bool :=
  leadsWith (str "ishares® russell 3000 index fund") (lowerStr e)

/-- `parse_header_info` of `parse_old_ncsr.py`. -/
def parseHeaderInfoOld (page : PageOld) : Except Err (Str × Str) :=
  match page.ps.filter (fun p => !(emptyTag p)) with
  | t0 :: t1 :: t2 :: _ =>
    if titleOkOld (scrubTag t0) then
      if nameOkOld (scrubTag t1) then .ok (lowerStr (scrubTag t1), scrubTag t2)
      else .error "AssertionError: unexpected etf name"
    else .error "AssertionError: title is not schedule of investments"
  | _ => .error "IndexError: tags"

/-! ## Per-page and per-filing drivers -/

/-- The result dictionary of `parse_holdings_page` (new format). -/
structure PageResult where
  etfName : Str
  reportDate : Str
  holdings : List Holding
  sectorTotals : TotalsMap
  hitTotalCommonStocks : Bool
  currentSector : Option Str
deriving DecidableEq, Repr

/-- The column loop of `parse_holdings_page` in `parse_new_ncsr.py`. -/
def pageColsNew (isFirstPage : Bool) (isFirstCol : Bool) (cs : Option Str)
    (accH : List Holding) (accT : TotalsMap) :
    List Table → Except Err (List Holding × TotalsMap × Bool × Option Str)
  | [] => .ok (accH, accT, false, cs)
  | col :: cols =>
    match parseHoldingsColumnNew col (isFirstCol && isFirstPage) cs with
    | .error e => .error e
    | .ok h =>
      let accH' := accH ++ h.holdings
      let accT' := amerge accT h.sectorTotals
      if h.hitTotalCommonStocks then .ok (accH', accT', true, h.currentSector)
      else pageColsNew isFirstPage false h.currentSector accH' accT' cols

/-- `parse_holdings_page` of `parse_new_ncsr.py`. -/
def parseHoldingsPageNew (page : PageNew) (isFirstPage : Bool) (version : Nat)
    (cs : Option Str) : Except Err PageResult :=
  match parseHeaderInfoNew page version with
  | .error e => .error e
  | .ok (etf, date) =>
    match extractHoldingsColumns page version with
    | .error e => .error e
    | .ok cols =>
      match pageColsNew isFirstPage true cs [] [] cols with
      | .error e => .error e
      | .ok (hs, totals, hit, cs') => .ok ⟨etf, date, hs, totals, hit, cs'⟩

/-- The page loop of `parse_filing` in `parse_new_ncsr.py`. -/
def filingLoopNew (version : Nat) (isFirst : Bool) (cs : Option Str)
    (acc : List PageResult) : List PageNew → Except Err (List PageResult)
  | [] => .ok acc
  | p :: ps =>
    match parseHoldingsPageNew p isFirst version cs with
    | .error e => .error e
    | .ok r =>
      let acc' := acc ++ [r]
      if r.hitTotalCommonStocks then .ok acc'
      else filingLoopNew version false r.currentSector acc' ps

/-! ## Aggregation and reconciliation -/

def valOrZero (h : Holding) : Int := h.value.getD 0

/-- Derived grand total: the sum of all holding values, `None` as `0`. -/
def sumVals : List Holding → Int
  | [] => 0
  | h :: t => valOrZero h + sumVals t

/-- Derived per-sector sum: holdings whose stored sector label is `s`. -/
def sectorSum (hs : List Holding) (s : Str) : Int :=
  match hs with
  | [] => 0
  | h :: t => (if h.sector = some s then valOrZero h else 0) + sectorSum t s

/-- The inner holdings loop of the aggregation block of `parse_filing`
(new format): normalize each holding sector in place, extend the derived
per-sector sums and the derived grand total. -/
def aggHoldsNew : List Holding → List Holding → DerivedMap → Int →
    Except Err (List Holding × DerivedMap × Int)
  | [], hs, dsec, dcom => .ok (hs, dsec, dcom)
  | h :: t, hs, dsec, dcom =>
    match h.sector with
    | none => .error "TypeError: normalize_sector(None)"
    | some s =>
      let sname := normalizeSectorNew s
      let h' := { h with sector := some sname }
      let val := valOrZero h
      aggHoldsNew t (hs ++ [h']) (aset dsec sname (agetD dsec sname + val)) (dcom + val)

/-- The `i != 0` consecutive-header assertions of `parse_filing`
(new format). -/
def headerMatches (prev : Option (Str × Str)) (r : PageResult) : Bool :=
  match prev with
  | none => true
  | some (n, d) => decide (n = r.etfName) && decide (d = r.reportDate)

/-- The aggregation loop of `parse_filing` in `parse_new_ncsr.py`
(lines 443-459). -/
def aggLoopNew (prev : Option (Str × Str)) (hs : List Holding) (totals : TotalsMap)
    (dsec : DerivedMap) (dcom : Int) :
    List PageResult → Except Err (List Holding × TotalsMap × DerivedMap × Int)
  | [] => .ok (hs, totals, dsec, dcom)
  | r :: rest =>
    if headerMatches prev r then
      let totals' := amerge totals r.sectorTotals
      match aggHoldsNew r.holdings hs dsec dcom with
      | .error e => .error e
      | .ok (hs', dsec', dcom') =>
        aggLoopNew (some (r.etfName, r.reportDate)) hs' totals' dsec' dcom' rest
    else .error "AssertionError: page headers disagree"

/-- Python `reported == derived` where the reported total can be `None`. -/
def optEqInt (v : Option Int) (d : Int) : Bool :=
  match v with
  | none => false
  | some n => decide (n = d)

def tcsKey : Str := str "Total Common Stocks"

/-- The per-sector validation loop of `parse_filing` (new format):
`assert total == derived_sector_totals[normalize_sector(sector)]`. -/
def checkSectorsNew (dsec : DerivedMap) : TotalsMap → Except Err Unit
  | [] => .ok ()
  | (k, v) :: rest =>
    match alookup dsec (normalizeSectorNew k) with
    | none => .error "KeyError: derived sector total"
    | some d =>
      if optEqInt v d then checkSectorsNew dsec rest
      else .error "AssertionError: sector total mismatch"

/-- The validation block of `parse_filing` in `parse_new_ncsr.py`
(lines 461-467). -/
def validateNew (totals : TotalsMap) (dsec : DerivedMap) (dcom : Int) :
    Except Err Unit :=
  match alookup totals tcsKey with
  | none => .error "KeyError: Total Common Stocks"
  | some reported =>
    if optEqInt reported dcom then checkSectorsNew dsec (aerase totals tcsKey)
    else .error "AssertionError: grand total mismatch"

/-- `FilingResult`. -/
structure Filing where
  etfName : Str
  reportDate : Str
  holdings : List Holding
deriving DecidableEq, Repr

/-- `parse_filing` of `parse_new_ncsr.py`, on the structured relevant pages,
additionally exposing the reported totals and the derived sums for the
reconciliation statements. -/
def parseFilingNewFull (pages : List PageNew) :
    Except Err (Filing × TotalsMap × DerivedMap × Int) :=
  match pages with
  | [] => .error "IndexError: pages[0]"
  | p0 :: _ =>
    match getSubversion p0 with
    | .error e => .error e
    | .ok version =>
      match filingLoopNew version true none [] pages with
      | .error e => .error e
      | .ok results =>
        match aggLoopNew none [] [] [] 0 results with
        | .error e => .error e
        | .ok (hs, totals, dsec, dcom) =>
          match validateNew totals dsec dcom with
          | .error e => .error e
          | .ok _ =>
            match results with
            | [] => .error "IndexError: results[0]"
            | r0 :: _ => .ok (⟨r0.etfName, r0.reportDate, hs⟩, totals, dsec, dcom)

def parseFilingNew (pages : List PageNew) : Except Err Filing :=
  (parseFilingNewFull pages).map (fun x => x.1)

/-- The inner table loop of `parse_filing` in `parse_old_ncsr.py`:
`is_first_column` and `check_header` are both `i == 0`, the page index. -/
def oldTablesLoop (isFirst : Bool) (cs : Option Str) (acc : List ColState) :
    List Table → Except Err (List ColState × Option Str × Bool)
  | [] => .ok (acc, cs, false)
  | t :: ts =>
    match parseHoldingsColumnOld t isFirst cs isFirst with
    | .error e => .error e
    | .ok r =>
      let acc' := acc ++ [r]
      if r.hitTotalCommonStocks then .ok (acc', r.currentSector, true)
      else oldTablesLoop isFirst r.currentSector acc' ts

/-- The page loop of `parse_filing` in `parse_old_ncsr.py`. -/
def oldPagesLoop (isFirst : Bool) (cs : Option Str) (acc : List ColState) :
    List PageOld → Except Err (List ColState)
  | [] => .ok acc
  | p :: ps =>
    match oldTablesLoop isFirst cs acc p.tables with
    | .error e => .error e
    | .ok (acc', cs', hit) =>
      if hit then .ok acc' else oldPagesLoop false cs' acc' ps

/-- The per-sector validation loop of `parse_filing` (old format):
`assert df.loc[df.SECTOR==sector, "VALUE"].fillna(0).sum().item() == total`,
with the `pandas` sum modelled as the exact integer sum. -/
def checkSectorsOld (hs : List Holding) : TotalsMap → Except Err Unit
  | [] => .ok ()
  | (k, v) :: rest =>
    if optEqInt v (sectorSum hs k) then checkSectorsOld hs rest
    else .error "AssertionError: sector total mismatch"

/-- The validation block of `parse_filing` in `parse_old_ncsr.py`
(lines 315-320); an empty holdings list makes `pd.DataFrame([]).VALUE`
raise. -/
def validateOld (hs : List Holding) (totals : TotalsMap) : Except Err Unit :=
  if hs = [] then .error "AttributeError: empty holdings DataFrame"
  else
    match alookup totals tcsKey with
    | none => .error "KeyError: Total Common Stocks"
    | some reported =>
      if optEqInt reported (sumVals hs) then checkSectorsOld hs (aerase totals tcsKey)
      else .error "AssertionError: grand total mismatch"

/-- `parse_filing` of `parse_old_ncsr.py`, on the structured relevant pages,
additionally exposing the reported totals. -/
def parseFilingOldFull (pages : List PageOld) : Except Err (Filing × TotalsMap) :=
  match pages with
  | [] => .error "IndexError: pages[0]"
  | p0 :: _ =>
    match parseHeaderInfoOld p0 with
    | .error e => .error e
    | .ok (etf, date) =>
      match oldPagesLoop true none [] pages with
      | .error e => .error e
      | .ok results =>
        let hs := (results.map (fun r => r.holdings)).flatten
        let totals := results.foldl (fun d r => amerge d r.sectorTotals) []
        match validateOld hs totals with
        | .error e => .error e
        | .ok _ => .ok (⟨etf, date, hs⟩, totals)

def parseFilingOld (pages : List PageOld) : Except Err Filing :=
  (parseFilingOldFull pages).map (fun x => x.1)


/-! ## Concrete inputs for witnesses and counterexamples -/

/-- A minimal consistent new-format filing page (sub-version 1). -/
def demoNewTable : Table :=
  ⟨str "holdings column one", [], [],
   [[str "Security", str "Shares", str "Value"],
    [str "Common Stocks"],
    [str "Technology"],
    [str "Acme Corp", str "1,000", str "50,000"],
    [str "50,000"],
    [str "Total Common Stocks", str "50,000"]]⟩

def demoDummyTable : Table := ⟨str "x", [], [], []⟩

def demoNewPage : PageNew :=
  ⟨[str "Schedule of Investments (unaudited)",
    str "iShares® Russell 3000 ETF",
    str "March 31, 2015"],
   [demoNewTable, demoDummyTable, demoDummyTable]⟩

def demoNewHoldings : List Holding :=
  [⟨some (str "Technology"), str "Acme Corp", some 1000, some 50000⟩]

def demoNewFiling : Filing :=
  ⟨str "ishares® russell 3000 etf", str "March 31, 2015", demoNewHoldings⟩

def demoNewTotals : TotalsMap :=
  [(str "Technology", some 50000), (str "Total Common Stocks", some 50000)]

def demoNewDsec : DerivedMap := [(str "Technology", 50000)]

/-- A minimal consistent old-format filing page; its sector label carries the
`—4%` running-percentage suffix that classification strips. -/
def demoOldTable : Table :=
  ⟨str "old holdings", [], [],
   [[str "Security", str "Shares", str "Value"],
    [str "Common Stocks"],
    [str "Consumer Staples—4%"],
    [str "Acme", str "100", str "10"],
    [str "10"],
    [str "Total Common Stocks", str "10"]]⟩

def demoOldPage : PageOld :=
  ⟨[str "Schedule of Investments",
    str "iShares® Russell 3000 Index Fund",
    str "March 31, 2005"],
   [demoOldTable]⟩

def demoOldHoldings : List Holding :=
  [⟨some (str "Consumer Staples"), str "Acme", some 100, some 10⟩]

def demoOldFiling : Filing :=
  ⟨str "ishares® russell 3000 index fund", str "March 31, 2005", demoOldHoldings⟩

def demoOldTotals : TotalsMap :=
  [(str "Consumer Staples", some 10), (str "Total Common Stocks", some 10)]

/-- An old-format page whose first data row is a holding row, so that a
holding is classified before any sector label is seen. -/
def c2Table : Table :=
  ⟨str "c2", [], [],
   [[str "Security", str "Shares", str "Value"],
    [str "Common Stocks"],
    [str "Acme", str "100", str "5"],
    [str "Total Common Stocks", str "5"]]⟩

def c2Page : PageOld :=
  ⟨[str "Schedule of Investments",
    str "iShares® Russell 3000 Index Fund",
    str "March 31, 2005"],
   [c2Table]⟩

/-- An old-format page whose fund name extends the accepted spelling. -/
def c5Page : PageOld :=
  ⟨[str "Schedule of Investments",
    str "iShares® Russell 3000 Index Fund Bonus",
    str "March 31, 2005"],
   []⟩

/-- A two-page old-format filing whose pages carry different report dates. -/
def c6TableA : Table :=
  ⟨str "a", [], [],
   [[str "Security", str "Shares", str "Value"],
    [str "Common Stocks"],
    [str "Technology"],
    [str "Acme", str "100", str "10"],
    [str "10"]]⟩

def c6PageA : PageOld :=
  ⟨[str "Schedule of Investments",
    str "iShares® Russell 3000 Index Fund",
    str "March 31, 2005"],
   [c6TableA]⟩

def c6TableB : Table :=
  ⟨str "b", [], [], [[str "Total Common Stocks", str "10"]]⟩

def c6PageB : PageOld :=
  ⟨[str "Schedule of Investments",
    str "iShares® Russell 3000 Index Fund",
    str "June 30, 2099"],
   [c6TableB]⟩

/-! ## Helper lemmas: stripping -/

theorem rstripWs_cons (c : Char) (l : Str) :
    rstripWs (c :: l)
      = match rstripWs l with
        | [] => if isPyWs c = true then [] else [c]
        | r => c :: r := rfl

theorem rstripWs_idem (l : Str) : rstripWs (rstripWs l) = rstripWs l := by
  induction l with
  | nil => rfl
  | cons c rest ih =>
    cases hr : rstripWs rest with
    | nil =>
      by_cases h : isPyWs c = true
      · simp [rstripWs_cons, hr, h, rstripWs]
      · simp [rstripWs_cons, hr, h, rstripWs]
    | cons d r =>
      have hfix : rstripWs (d :: r) = d :: r := by rw [← hr, ih, hr]
      have h1 : rstripWs (c :: rest) = c :: d :: r := by rw [rstripWs_cons, hr]
      rw [h1, rstripWs_cons, hfix]

theorem rstripWs_head (c : Char) (rest : Str) :
    rstripWs (c :: rest) = [] ∨ ∃ r, rstripWs (c :: rest) = c :: r := by
  cases hr : rstripWs rest with
  | nil =>
    by_cases h : isPyWs c = true
    · left; simp [rstripWs, hr, h]
    · right; exact ⟨[], by simp [rstripWs, hr, h]⟩
  | cons d r => right; exact ⟨d :: r, by simp [rstripWs, hr]⟩

theorem dropWhile_ws_head : ∀ {l : Str} {c : Char} {t : Str},
    l.dropWhile isPyWs = c :: t → isPyWs c = false := by
  intro l
  induction l with
  | nil => intro c t h; simp at h
  | cons a rest ih =>
    intro c t h
    by_cases ha : isPyWs a = true
    · rw [List.dropWhile_cons, if_pos ha] at h; exact ih h
    · rw [List.dropWhile_cons, if_neg ha] at h
      cases h
      simpa using ha

theorem pyStrip_dropWhile (s : Str) :
    (pyStrip s).dropWhile isPyWs = pyStrip s := by
  unfold pyStrip
  cases hu : s.dropWhile isPyWs with
  | nil => rfl
  | cons c t =>
    have hc : isPyWs c = false := dropWhile_ws_head hu
    rcases rstripWs_head c t with h | ⟨r, h⟩
    · rw [h]; rfl
    · rw [h, List.dropWhile_cons, if_neg (by simp [hc])]

theorem pyStrip_idem (s : Str) : pyStrip (pyStrip s) = pyStrip s := by
  have hstep : pyStrip (pyStrip s) = rstripWs ((pyStrip s).dropWhile isPyWs) := rfl
  rw [hstep, pyStrip_dropWhile]
  exact rstripWs_idem _

theorem pyStrip_normalizeSectorNew (s : Str) :
    pyStrip (normalizeSectorNew s) = normalizeSectorNew s :=
  pyStrip_idem _

theorem pyStrip_normalizeSectorOld (s : Str) :
    pyStrip (normalizeSectorOld s) = normalizeSectorOld s :=
  pyStrip_idem _

/-! ## Helper lemmas: absent patterns -/

theorem replaceAllNE_no_occur {p : Char} {ps repl : Str} :
    ∀ {s : Str}, containsSub (p :: ps) s = false → replaceAllNE p ps repl s = s := by
  intro s
  induction s with
  | nil => intro h; rfl
  | cons c rest ih =>
    intro h
    rw [containsSub, Bool.or_eq_false_iff] at h
    show replGo p ps repl 0 (c :: rest) = c :: rest
    rw [replGo, if_neg (by simp [h.1])]
    exact congrArg (c :: ·) (ih h.2)

theorem subChar_no_occur {c : Char} {repl : Str} :
    ∀ {s : Str}, c ∉ s → subChar c repl s = s := by
  intro s
  induction s with
  | nil => intro h; rfl
  | cons a rest ih =>
    intro h
    have ha : ¬(a = c) := fun e => h (e ▸ List.mem_cons_self a rest)
    have hrest : c ∉ rest := fun e => h (List.mem_cons_of_mem a e)
    simp only [subChar, List.map_cons, List.flatten_cons, if_neg ha]
    have : (rest.map fun a => if a = c then repl else [a]).flatten = rest := ih hrest
    rw [this]
    rfl

/-! ## Helper lemmas: leading digits survive scrubbing -/

theorem isPyWs_not_digit {c : Char} (h : isPyWs c = true) : c.isDigit = false := by
  simp only [isPyWs, Bool.or_eq_true, decide_eq_true_eq] at h
  rcases h with ((((((h | h) | h) | h) | h) | h) | h) | h <;> subst h <;> decide

theorem firstIsDigit_collapseWs (l : Str) :
    firstIsDigit (collapseWs l) = firstIsDigit l := by
  induction l with
  | nil => rfl
  | cons a rest ih =>
    cases rest with
    | nil =>
      by_cases h : isPyWs a = true
      · simp [collapseWs, h, firstIsDigit, isPyWs_not_digit h]
      · simp [collapseWs, h, firstIsDigit]
    | cons b rest2 =>
      by_cases ha : isPyWs a = true
      · by_cases hb : isPyWs b = true
        · rw [show collapseWs (a :: b :: rest2) = collapseWs (b :: rest2) by
            simp [collapseWs, ha, hb]]
          rw [ih]
          simp [firstIsDigit, isPyWs_not_digit ha, isPyWs_not_digit hb]
        · rw [show collapseWs (a :: b :: rest2) = ' ' :: collapseWs (b :: rest2) by
            simp [collapseWs, ha, hb]]
          simp [firstIsDigit, isPyWs_not_digit ha]
      · rw [show collapseWs (a :: b :: rest2) = a :: collapseWs (b :: rest2) by
          simp [collapseWs, ha]]
        simp [firstIsDigit]

theorem firstIsDigit_map (f : Char → Char)
    (hf : ∀ c, (f c).isDigit = c.isDigit) (l : Str) :
    firstIsDigit (l.map f) = firstIsDigit l := by
  cases l with
  | nil => rfl
  | cons c rest => simp [firstIsDigit, hf]

theorem firstIsDigit_scrubText (l : Str) :
    firstIsDigit (scrubText l) = firstIsDigit l := by
  unfold scrubText
  rw [firstIsDigit_map _ (fun c => by by_cases h : c = '\x92' <;> simp [h]),
    firstIsDigit_collapseWs,
    firstIsDigit_map _ (fun c => by by_cases h : c = '\xa0' <;> simp [h])]

/-! ## Helper lemmas: association lists -/

theorem alookup_aset {A : Type} (d : List (Str × A)) (k : Str) (v : A) (k' : Str) :
    alookup (aset d k v) k' = if k = k' then some v else alookup d k' := by
  induction d with
  | nil => simp [aset, alookup]
  | cons kv rest ih =>
    rcases kv with ⟨k0, v0⟩
    by_cases h1 : k0 = k
    · subst h1
      by_cases h2 : k0 = k' <;> simp [aset, alookup, h2]
    · rw [show aset ((k0, v0) :: rest) k v = (k0, v0) :: aset rest k v by
        simp [aset, h1]]
      by_cases h3 : k0 = k'
      · subst h3
        have hkk : ¬(k = k0) := fun e => h1 e.symm
        rw [show alookup ((k0, v0) :: aset rest k v) k0 = some v0 by simp [alookup]]
        rw [if_neg hkk]
        simp [alookup]
      · rw [show alookup ((k0, v0) :: aset rest k v) k' = alookup (aset rest k v) k' by
          simp [alookup, h3]]
        rw [show alookup ((k0, v0) :: rest) k' = alookup rest k' by simp [alookup, h3]]
        exact ih

theorem agetD_aset (d : DerivedMap) (k : Str) (v : Int) (k' : Str) :
    agetD (aset d k v) k' = if k = k' then v else agetD d k' := by
  unfold agetD
  rw [alookup_aset]
  by_cases h : k = k' <;> simp [h]

/-! ## Helper lemmas: sums -/

theorem sumVals_append (hs : List Holding) (h : Holding) :
    sumVals (hs ++ [h]) = sumVals hs + valOrZero h := by
  induction hs with
  | nil => simp [sumVals]
  | cons a t ih => simp [sumVals, ih]; ring

theorem sectorSum_append (hs : List Holding) (h : Holding) (s : Str) :
    sectorSum (hs ++ [h]) s
      = sectorSum hs s + (if h.sector = some s then valOrZero h else 0) := by
  induction hs with
  | nil => simp [sectorSum]
  | cons a t ih => simp [sectorSum, ih]; ring

/-! ## Helper lemmas: aggregation invariants -/

theorem optEqInt_true {v : Option Int} {d : Int} (h : optEqInt v d = true) :
    v = some d := by
  cases v with
  | none => simp [optEqInt] at h
  | some n => simp [optEqInt] at h; rw [h]

theorem aggHoldsNew_spec :
    ∀ (hl hs : List Holding) (dsec : DerivedMap) (dcom : Int)
      (hs' : List Holding) (dsec' : DerivedMap) (dcom' : Int),
      aggHoldsNew hl hs dsec dcom = .ok (hs', dsec', dcom') →
      dcom = sumVals hs → (∀ s, agetD dsec s = sectorSum hs s) →
      dcom' = sumVals hs' ∧ ∀ s, agetD dsec' s = sectorSum hs' s := by
  intro hl
  induction hl with
  | nil =>
    intro hs dsec dcom hs' dsec' dcom' hok h1 h2
    simp [aggHoldsNew] at hok
    obtain ⟨e1, e2, e3⟩ := hok
    subst e1; subst e2; subst e3
    exact ⟨h1, h2⟩
  | cons h t ih =>
    intro hs dsec dcom hs' dsec' dcom' hok h1 h2
    cases hsec : h.sector with
    | none => rw [aggHoldsNew, hsec] at hok; exact absurd hok (by simp)
    | some s0 =>
      rw [aggHoldsNew, hsec] at hok
      refine ih _ _ _ _ _ _ hok ?_ ?_
      · rw [sumVals_append, h1]
        simp [valOrZero]
      · intro s
        rw [agetD_aset, sectorSum_append]
        by_cases he : normalizeSectorNew s0 = s
        · rw [if_pos he, if_pos (by simp [he]), h2]
          simp [valOrZero, he]
        · rw [if_neg he, if_neg (by simp [he]), h2]
          simp

theorem aggLoopNew_spec :
    ∀ (results : List PageResult) (prev : Option (Str × Str)) (hs : List Holding)
      (totals : TotalsMap) (dsec : DerivedMap) (dcom : Int)
      (hs' : List Holding) (totals' : TotalsMap) (dsec' : DerivedMap) (dcom' : Int),
      aggLoopNew prev hs totals dsec dcom results = .ok (hs', totals', dsec', dcom') →
      dcom = sumVals hs → (∀ s, agetD dsec s = sectorSum hs s) →
      dcom' = sumVals hs' ∧ ∀ s, agetD dsec' s = sectorSum hs' s := by
  intro results
  induction results with
  | nil =>
    intro prev hs totals dsec dcom hs' totals' dsec' dcom' hok h1 h2
    simp [aggLoopNew] at hok
    obtain ⟨e1, e2, e3, e4⟩ := hok
    subst e1; subst e3; subst e4
    exact ⟨h1, h2⟩
  | cons r rest ih =>
    intro prev hs totals dsec dcom hs' totals' dsec' dcom' hok h1 h2
    rw [aggLoopNew] at hok
    by_cases hm : headerMatches prev r = true
    · rw [if_pos hm] at hok
      cases hagg : aggHoldsNew r.holdings hs dsec dcom with
      | error e => rw [hagg] at hok; exact absurd hok (by simp)
      | ok out =>
        rcases out with ⟨hs2, dsec2, dcom2⟩
        rw [hagg] at hok
        obtain ⟨ha, hb⟩ := aggHoldsNew_spec _ _ _ _ _ _ _ hagg h1 h2
        exact ih _ _ _ _ _ _ _ _ _ hok ha hb
    · rw [if_neg hm] at hok
      exact absurd hok (by simp)

theorem aggLoopNew_anchor :
    ∀ (results : List PageResult) (n d : Str) (hs : List Holding)
      (totals : TotalsMap) (dsec : DerivedMap) (dcom : Int) out,
      aggLoopNew (some (n, d)) hs totals dsec dcom results = .ok out →
      ∀ r ∈ results, r.etfName = n ∧ r.reportDate = d := by
  intro results
  induction results with
  | nil => intro n d hs totals dsec dcom out hok r hr; simp at hr
  | cons r0 rest ih =>
    intro n d hs totals dsec dcom out hok r hr
    rw [aggLoopNew] at hok
    by_cases hm : headerMatches (some (n, d)) r0 = true
    · rw [if_pos hm] at hok
      simp only [headerMatches, Bool.and_eq_true, decide_eq_true_eq] at hm
      rcases hm with ⟨hn, hd⟩
      rcases List.mem_cons.mp hr with he | hmem
      · subst he; exact ⟨hn.symm, hd.symm⟩
      · cases hagg : aggHoldsNew r0.holdings hs dsec dcom with
        | error e => rw [hagg] at hok; exact absurd hok (by simp)
        | ok out2 =>
          rcases out2 with ⟨hs2, dsec2, dcom2⟩
          rw [hagg] at hok
          rw [← hn, ← hd] at hok
          exact ih _ _ _ _ _ _ _ hok r hmem
    · rw [if_neg hm] at hok
      exact absurd hok (by simp)

theorem checkSectorsNew_ok :
    ∀ (l : TotalsMap) (dsec : DerivedMap),
      checkSectorsNew dsec l = .ok () →
      ∀ kv ∈ l, ∃ dv, alookup dsec (normalizeSectorNew kv.1) = some dv ∧ kv.2 = some dv := by
  intro l
  induction l with
  | nil => intro dsec hok kv hkv; simp at hkv
  | cons kv0 rest ih =>
    intro dsec hok kv hkv
    rcases kv0 with ⟨k, v⟩
    rw [checkSectorsNew] at hok
    cases hl : alookup dsec (normalizeSectorNew k) with
    | none => simp only [hl] at hok; exact absurd hok (by simp)
    | some dv =>
      simp only [hl] at hok
      by_cases he : optEqInt v dv = true
      · rw [if_pos he] at hok
        rcases List.mem_cons.mp hkv with hh | hmem
        · subst hh; exact ⟨dv, hl, optEqInt_true he⟩
        · exact ih dsec hok kv hmem
      · rw [if_neg he] at hok; exact absurd hok (by simp)

theorem checkSectorsOld_ok :
    ∀ (l : TotalsMap) (hs : List Holding),
      checkSectorsOld hs l = .ok () →
      ∀ kv ∈ l, kv.2 = some (sectorSum hs kv.1) := by
  intro l
  induction l with
  | nil => intro hs hok kv hkv; simp at hkv
  | cons kv0 rest ih =>
    intro hs hok kv hkv
    rcases kv0 with ⟨k, v⟩
    rw [checkSectorsOld] at hok
    by_cases he : optEqInt v (sectorSum hs k) = true
    · rw [if_pos he] at hok
      rcases List.mem_cons.mp hkv with hh | hmem
      · subst hh; exact optEqInt_true he
      · exact ih hs hok kv hmem
    · rw [if_neg he] at hok; exact absurd hok (by simp)

/-! ## C3: version classifier -/

/-- C3: `get_subversion` implements exactly the spec decision rule: with three
tables it returns the legacy sub-version 1 iff the first table's rendered
content does not match the schedule-of-investments pattern and the modern
sub-version 2 otherwise, with four tables it returns 2, and any other table
count (in particular five) is a fatal error; the result is a pure function of
the table count and the first table's rendered content, as witnessed by the
equation with `subversionSpec`. -/
theorem c3_version_classifier (page : PageNew) :
    getSubversion page
      = subversionSpec page.tables.length ((page.tables.head?).map Table.rendered) := by
  rcases page with ⟨pre, tables⟩
  match tables with
  | [] => rfl
  | [a] => rfl
  | [a, b] => rfl
  | [a, b, c] => rfl
  | [a, b, c, d] => rfl
  | a :: b :: c :: d :: e :: rest =>
    have h3 : ¬((a :: b :: c :: d :: e :: rest).length = 3) := by simp
    have h4 : ¬((a :: b :: c :: d :: e :: rest).length = 4) := by simp
    simp only [getSubversion, subversionSpec, if_neg h3, if_neg h4]

/-! ## C4: page segmentation -/

theorem sliceBuf_glue (buf : Str) {a b c : Nat} (hab : a ≤ b) (hbc : b ≤ c) :
    sliceBuf buf a b ++ sliceBuf buf b c = sliceBuf buf a c := by
  unfold sliceBuf
  have hd : buf.drop b = (buf.drop a).drop (b - a) := by
    rw [List.drop_drop]
    congr 1
    omega
  rw [hd, ← List.take_add]
  congr 1
  omega

theorem sorted_le_getLastD :
    ∀ (rest : List Nat) (b : Nat),
      (b :: rest).Sorted (· ≤ ·) → b ≤ rest.getLastD b := by
  intro rest
  induction rest with
  | nil => intro b h; simp
  | cons c rest2 ih =>
    intro b h
    have hbc : b ≤ c := (List.sorted_cons.mp h).1 c (by simp)
    have htail : (c :: rest2).Sorted (· ≤ ·) := (List.sorted_cons.mp h).2
    calc b ≤ c := hbc
      _ ≤ rest2.getLastD c := ih c htail
      _ = (c :: rest2).getLastD b := by rw [List.getLastD_cons]

theorem slices_join :
    ∀ (l : List Nat), l.Sorted (· ≤ ·) → ∀ buf : Str,
      ((l.zip l.tail).map (fun p => sliceBuf buf p.1 p.2)).flatten
        = sliceBuf buf (l.headD 0) (l.getLastD 0) := by
  intro l
  induction l with
  | nil => intro h buf; simp [sliceBuf]
  | cons a rest ih =>
    intro h buf
    cases rest with
    | nil => simp [sliceBuf]
    | cons b rest2 =>
      have hab : a ≤ b := (List.sorted_cons.mp h).1 b (by simp)
      have htail : (b :: rest2).Sorted (· ≤ ·) := (List.sorted_cons.mp h).2
      have hbl : b ≤ rest2.getLastD b := sorted_le_getLastD rest2 b htail
      have hz :
          ((a :: b :: rest2).zip (a :: b :: rest2).tail).map
              (fun p => sliceBuf buf p.1 p.2)
            = sliceBuf buf a b ::
                (((b :: rest2).zip (b :: rest2).tail).map
                  (fun p => sliceBuf buf p.1 p.2)) := rfl
      rw [hz, List.flatten_cons, ih htail buf]
      have hh : (b :: rest2).headD 0 = b := rfl
      have hl1 : (b :: rest2).getLastD 0 = rest2.getLastD b := List.getLastD_cons 0 b rest2
      have hl2 : (a :: b :: rest2).getLastD 0 = rest2.getLastD b := by
        rw [List.getLastD_cons, List.getLastD_cons]
      rw [hh, hl1, hl2]
      exact sliceBuf_glue buf hab hbl

/-- C4: page segmentation sorts the collected page-break-marker offsets
ascending and cuts the buffer at consecutive offsets (the marker discovery
itself is abstracted as the offset list): `k` marker offsets always yield
exactly `k - 1` candidate pages, and the pages, in buffer order, concatenate
back to the byte range between the first and the last sorted offset — a
partition with no gaps and no overlaps. -/
theorem c4_segmentation (buf : Str) (offsets : List Nat) :
    (segmentPagesAt buf offsets).length = offsets.length - 1 ∧
    (segmentPagesAt buf offsets).flatten
      = sliceBuf buf ((sortedOffsets offsets).headD 0)
          ((sortedOffsets offsets).getLastD 0) := by
  constructor
  · unfold segmentPagesAt
    rw [List.length_map, List.length_zip, List.length_tail]
    have hlen : (sortedOffsets offsets).length = offsets.length :=
      (List.perm_insertionSort _ _).length_eq
    omega
  · have hsorted : (sortedOffsets offsets).Sorted (· ≤ ·) :=
      List.sorted_insertionSort _ _
    exact slices_join _ hsorted buf

/-! ## C7: value parsing -/

theorem intLiteral?_nonneg {v : Str} {n : Int}
    (h : intLiteral? v = some n) (hm : '-' ∉ v) : 0 ≤ n := by
  unfold intLiteral? at h
  split at h
  · split at h
    · cases h; positivity
    · simp at h
  · exact absurd (List.mem_cons_self _ _) hm
  · split at h
    · cases h; positivity
    · simp at h

/-- C7 (amended): `parse_int` returns `None` iff the normalized cell text is
one of the recognized blank placeholders; otherwise it parses the cell with
Python `int()`, which also accepts signed values, so non-negativity holds
only for cells without a minus sign (it is not enforced in general). -/
theorem c7_value_parse (s : Str) :
    (parseInt s = .ok none ↔
      (normCell s = str "\x96" ∨ normCell s = str "\x97" ∨
       normCell s = str "(e)" ∨ normCell s = str "(f)")) ∧
    (∀ n : Int, parseInt s = .ok (some n) → '-' ∉ normCell s → 0 ≤ n) := by
  constructor
  · constructor
    · intro h
      by_contra hc
      simp only [parseInt, if_neg hc] at h
      cases hi : intLiteral? (normCell s) with
      | some n => rw [hi] at h; simp at h
      | none => rw [hi] at h; simp at h
    · intro h
      simp only [parseInt, if_pos h]
  · intro n hok hmem
    by_cases hp : (normCell s = str "\x96" ∨ normCell s = str "\x97" ∨
        normCell s = str "(e)" ∨ normCell s = str "(f)")
    · simp only [parseInt, if_pos hp] at hok
      simp at hok
    · simp only [parseInt, if_neg hp] at hok
      cases hi : intLiteral? (normCell s) with
      | none => rw [hi] at hok; simp at hok
      | some m =>
        rw [hi] at hok
        simp only [Except.ok.injEq, Option.some.injEq] at hok
        subst hok
        exact intLiteral?_nonneg hi hmem

/-- C7 witness: a plain digit cell parses non-negatively via the theorem. -/
theorem c7_value_parse_witness : (0 : Int) ≤ 50 :=
  (c7_value_parse (str "50")).2 50 (by decide) (by decide)

/-- C7 counterexample: the classifier accepts a negative value cell, so the
claimed non-negativity of every non-null value fails on the code. -/
theorem c7_counterexample :
    parseHoldingsColumnNew
        ⟨str "t", [], [],
          [[str "Security", str "Shares", str "Value"],
           [str "Acme", str "100", str "-5"]]⟩
        false (some (str "Technology"))
      = .ok ⟨[⟨some (str "Technology"), str "Acme", some 100, some (-5)⟩],
             [], false, some (str "Technology")⟩ ∧
    ((-5 : Int) < 0) := by
  constructor
  · rfl
  · decide

/-! ## C8: sector-label normalization idempotence -/

theorem normalizeSectorNew_fix {r : Str} (hp : pyStrip r = r)
    (hcont : containsSub (str "(continued)") r = false)
    (hdash : containsSub (str "---") r = false) :
    normalizeSectorNew r = r := by
  have hrepl : replaceAllNE '(' (str "continued)") [] r = r :=
    replaceAllNE_no_occur hcont
  simp only [normalizeSectorNew, hrepl, hp, hdash]
  rw [if_neg (by simp [hdash])]
  exact hp

theorem normalizeSectorOld_fix {r : Str} (hp : pyStrip r = r)
    (hcont : containsSub (str "(continued)") r = false)
    (hdash : containsSub (str "---") r = false)
    (hspace : containsSub (str " ") r = false)
    (h96 : '\x96' ∉ r) (h97 : '\x97' ∉ r)
    (hnbsp : containsSub (str "&nbsp;") r = false)
    (hem : '—' ∉ r) :
    normalizeSectorOld r = r := by
  have hrepl : replaceAllNE '(' (str "continued)") [] r = r :=
    replaceAllNE_no_occur hcont
  have h96' : subChar '\x96' (str "---") r = r := subChar_no_occur h96
  have h97' : subChar '\x97' (str "---") r = r := subChar_no_occur h97
  have hnbsp' : replaceAllNE '&' (str "nbsp;") (str " ") r = r :=
    replaceAllNE_no_occur hnbsp
  have hem' : subChar '—' (str "---") r = r := subChar_no_occur hem
  simp only [normalizeSectorOld, hrepl, hp, h96', h97', hnbsp', hem']
  rw [if_neg (by simp [hdash]), if_neg (by simp [hspace])]
  exact hp

/-- C8 (amended): sector-label normalization is not idempotent in general
(see the counterexample), but it is idempotent on every input whose
normalized form is free of the rewritten tokens: no `(continued)` and no
`---` separator for the modern normalizer; additionally no space, `\x96`,
`\x97`, `&nbsp;` or `—` for the legacy normalizer. -/
theorem c8_normalize_idempotent_on_separator_free :
    (∀ s : Str,
      containsSub (str "(continued)") (normalizeSectorNew s) = false →
      containsSub (str "---") (normalizeSectorNew s) = false →
      normalizeSectorNew (normalizeSectorNew s) = normalizeSectorNew s) ∧
    (∀ s : Str,
      containsSub (str "(continued)") (normalizeSectorOld s) = false →
      containsSub (str "---") (normalizeSectorOld s) = false →
      containsSub (str " ") (normalizeSectorOld s) = false →
      '\x96' ∉ normalizeSectorOld s → '\x97' ∉ normalizeSectorOld s →
      containsSub (str "&nbsp;") (normalizeSectorOld s) = false →
      '—' ∉ normalizeSectorOld s →
      normalizeSectorOld (normalizeSectorOld s) = normalizeSectorOld s) := by
  constructor
  · intro s h1 h2
    exact normalizeSectorNew_fix (pyStrip_normalizeSectorNew s) h1 h2
  · intro s h1 h2 h3 h4 h5 h6 h7
    exact normalizeSectorOld_fix (pyStrip_normalizeSectorOld s) h1 h2 h3 h4 h5 h6 h7

/-- C8 witness: a separator-free label is a fixed point of both
normalizers. -/
theorem c8_normalize_idempotent_witness :
    normalizeSectorNew (normalizeSectorNew (str "Technology"))
      = normalizeSectorNew (str "Technology") ∧
    normalizeSectorOld (normalizeSectorOld (str "Technology"))
      = normalizeSectorOld (str "Technology") :=
  ⟨(c8_normalize_idempotent_on_separator_free).1 (str "Technology")
      (by decide) (by decide),
   (c8_normalize_idempotent_on_separator_free).2 (str "Technology")
      (by decide) (by decide) (by decide) (by decide) (by decide) (by decide)
      (by decide)⟩

/-- C8 counterexample: a label with two `---` separators loses one segment
per application, so normalization is not idempotent. -/
theorem c8_normalize_counterexample :
    normalizeSectorNew (normalizeSectorNew (str "a---b---c"))
      ≠ normalizeSectorNew (str "a---b---c") := by decide

/-! ## C10: single-field numeric classification -/

/-- C10: `is_int` returns true iff the comma-stripped cell begins with a
decimal digit, and a single-field row satisfying it is always classified as a
sector subtotal, never as a sector label — when the rest of the cell is
non-numeric the subsequent `parse_int` raises a value-parse error which
aborts the column, instead of the cell being recorded as a label. -/
theorem c10_is_int_classification :
    (∀ s : Str, isInt s = firstIsDigit (removeCommas s)) ∧
    (∀ (st : ColState) (row : List Str) (rest : List (List Str)) (x : Str)
       (cs : Str) (e : Err),
      parseRow row = [x] → isInt x = true →
      st.currentSector = some cs → ahasKey st.sectorTotals cs = false →
      parseInt x = .error e →
      colLoopNew st (row :: rest) = .error e) := by
  constructor
  · intro s
    unfold isInt
    exact firstIsDigit_scrubText _
  · intro st row rest x cs e hrow hint hcs hkey herr
    rw [colLoopNew, hrow]
    simp only [hint, hcs, hkey, herr, if_true, Bool.false_eq_true, if_false]

/-- C10 witness: the cell `1abc` is classified as a subtotal and fails the
integer parse. -/
theorem c10_is_int_witness :
    isInt (str "1abc") = firstIsDigit (removeCommas (str "1abc")) ∧
    colLoopNew ⟨[], [], false, some (str "Technology")⟩ [[str "1abc"]]
      = .error "ValueError: invalid literal for int()" :=
  ⟨c10_is_int_classification.1 (str "1abc"),
   c10_is_int_classification.2 ⟨[], [], false, some (str "Technology")⟩
     [str "1abc"] [] (str "1abc") (str "Technology")
     "ValueError: invalid literal for int()"
     (by decide) (by decide) rfl (by decide) (by decide)⟩

/-! ## C9: page-relevance filters -/

/-- C9 (amended): the legacy filter excludes every page preceding the first
page that matches the schedule heading and the fund name without matching
the summary pattern; the notes-to-financial-statements exclusion (kept only
with a "see notes" cross-reference) belongs to the modern generation's
filter, not the legacy one (see the counterexample). -/
theorem c9_page_filters :
    (∀ (pre rest : List Str),
      (∀ t ∈ pre, goodOldPage t = false) →
      extractPagesFilterOld (pre ++ rest) = extractPagesFilterOld rest) ∧
    (∀ t : Str, ntsPat t = true → stnPat t = false → keepPageNew t = false) := by
  constructor
  · intro pre
    induction pre with
    | nil => intro rest h; rfl
    | cons t pre2 ih =>
      intro rest h
      have ht : goodOldPage t = false := h t (by simp)
      have h2 : ∀ u ∈ pre2, goodOldPage u = false := fun u hu => h u (by simp [hu])
      show oldFilterLoop false (t :: (pre2 ++ rest)) = extractPagesFilterOld rest
      rw [oldFilterLoop]
      simp only [ht, Bool.or_false, Bool.false_eq_true, if_false]
      exact ih rest h2
  · intro t h1 h2
    simp [keepPageNew, h1, h2]

/-- C9 witness: a cover page before the first schedule page is excluded, and
a bare notes page is excluded by the modern filter. -/
theorem c9_page_filters_witness :
    extractPagesFilterOld
        (str "annual report cover page"
          :: [str "schedule of investments russell 3000 index fund"])
      = extractPagesFilterOld
          [str "schedule of investments russell 3000 index fund"] ∧
    keepPageNew (str "notes to financial statements") = false :=
  ⟨c9_page_filters.1 [str "annual report cover page"]
      [str "schedule of investments russell 3000 index fund"] (by decide),
   c9_page_filters.2 (str "notes to financial statements") (by decide) (by decide)⟩

/-- C9 counterexample: the legacy filter keeps a notes-to-financial-statements
page that has no "see notes" cross-reference, contrary to the claim. -/
theorem c9_counterexample :
    extractPagesFilterOld
        [str "schedule of investments russell 3000 index fund",
         str "notes to financial statements"]
      = [str "schedule of investments russell 3000 index fund",
         str "notes to financial statements"] ∧
    ntsPat (str "notes to financial statements") = true ∧
    stnPat (str "notes to financial statements") = false :=
  ⟨by decide, by decide, by decide⟩

/-! ## C2: sector-context invariant -/

/-- C2 (amended): classifying a sector-total row (one numeric field) with
`current_sector` unset is a fatal structural error in both generations, but
holding rows are not guarded: a 3-field row is recorded with whatever
`current_sector` holds — including `None` — without any immediate error. -/
theorem c2_sector_invariant :
    (∀ (st : ColState) (row : List Str) (rest : List (List Str)) (x : Str),
      parseRow row = [x] → isInt x = true → st.currentSector = none →
      colLoopNew st (row :: rest)
        = .error "AssertionError: current_sector is None at sector total") ∧
    (∀ (st : ColState) (row : List Str) (rest : List (List Str)) (x : Str),
      parseRow row = [x] → isInt x = true → st.currentSector = none →
      colLoopOld st (row :: rest)
        = .error "AssertionError: current_sector is None at sector total") ∧
    (∀ (st : ColState) (row : List Str) (rest : List (List Str)) (a b c : Str)
       (sh v : Option Int),
      parseRow row = [a, b, c] → parseInt b = .ok sh → parseInt c = .ok v →
      colLoopNew st (row :: rest)
        = colLoopNew
            { st with holdings :=
                st.holdings ++ [⟨st.currentSector, pyStrip a, sh, v⟩] } rest) ∧
    (∀ (st : ColState) (row : List Str) (rest : List (List Str)) (a b c : Str)
       (sh v : Option Int),
      parseRow row = [a, b, c] → parseInt b = .ok sh → parseInt c = .ok v →
      colLoopOld st (row :: rest)
        = colLoopOld
            { st with holdings :=
                st.holdings ++ [⟨st.currentSector, pyStrip a, sh, v⟩] } rest) := by
  refine ⟨?_, ?_, ?_, ?_⟩
  · intro st row rest x hrow hint hcs
    rw [colLoopNew, hrow]
    simp only [hint, hcs, if_true]
  · intro st row rest x hrow hint hcs
    rw [colLoopOld, hrow]
    simp only [hint, hcs, if_true]
  · intro st row rest a b c sh v hrow hb hc
    rw [colLoopNew, hrow]
    simp only [hb, hc]
  · intro st row rest a b c sh v hrow hb hc
    rw [colLoopOld, hrow]
    simp only [hb, hc]

/-- C2 witness: concrete instances of the guarded subtotal classification and
the unguarded holding classification. -/
theorem c2_sector_invariant_witness :
    colLoopNew ⟨[], [], false, none⟩ [[str "5"]]
      = .error "AssertionError: current_sector is None at sector total" ∧
    colLoopOld ⟨[], [], false, none⟩ [[str "5"]]
      = .error "AssertionError: current_sector is None at sector total" ∧
    colLoopNew ⟨[], [], false, none⟩ [[str "Acme", str "1", str "2"]]
      = colLoopNew ⟨[⟨none, pyStrip (str "Acme"), some 1, some 2⟩], [], false, none⟩ [] ∧
    colLoopOld ⟨[], [], false, none⟩ [[str "Acme", str "1", str "2"]]
      = colLoopOld ⟨[⟨none, pyStrip (str "Acme"), some 1, some 2⟩], [], false, none⟩ [] :=
  ⟨c2_sector_invariant.1 _ [str "5"] [] (str "5") (by decide) (by decide) rfl,
   c2_sector_invariant.2.1 _ [str "5"] [] (str "5") (by decide) (by decide) rfl,
   c2_sector_invariant.2.2.1 _ [str "Acme", str "1", str "2"] []
     (str "Acme") (str "1") (str "2") (some 1) (some 2)
     (by decide) (by decide) (by decide),
   c2_sector_invariant.2.2.2 _ [str "Acme", str "1", str "2"] []
     (str "Acme") (str "1") (str "2") (some 1) (some 2)
     (by decide) (by decide) (by decide)⟩

/-- C2 counterexample: a legacy filing whose first data row is a holding row
parses to completion — the holding is recorded with a null sector and no
fatal structural error aborts the parse, contrary to the claim. -/
theorem c2_counterexample :
    parseFilingOldFull [c2Page]
      = .ok (⟨str "ishares® russell 3000 index fund", str "March 31, 2005",
              [⟨none, str "Acme", some 100, some 5⟩]⟩,
             [(str "Total Common Stocks", some 5)]) := by
  rfl

/-! ## C5: header validation -/

/-- C5 (amended): once the header cells are extracted, validation fails iff
the title or the fund name check fails, and on success the fund name is
returned lower-cased with the report date; but the two generations check
differently — the modern generation requires the lower-cased name to equal
one of three fixed spellings, while the legacy generation only requires the
name to begin with its accepted spelling (and the title to begin with the
schedule-of-investments pattern), so a name extending the spelling passes
(see the counterexample). -/
theorem c5_header_validation :
    (∀ (page : PageNew) (v : Nat) (t e d : Str),
      extractHeaderNew page v = .ok (t, e, d) →
      (parseHeaderInfoNew page v = .ok (lowerStr e, d) ↔
        titleOkNew t = true ∧ nameOkNew e = true) ∧
      (titleOkNew t = false →
        parseHeaderInfoNew page v
          = .error "AssertionError: title is not schedule of investments") ∧
      (titleOkNew t = true → nameOkNew e = false →
        parseHeaderInfoNew page v = .error "AssertionError: unexpected etf name")) ∧
    (∀ (page : PageOld) (t0 t1 t2 : Str) (restTags : List Str),
      page.ps.filter (fun p => !(emptyTag p)) = t0 :: t1 :: t2 :: restTags →
      (parseHeaderInfoOld page = .ok (lowerStr (scrubTag t1), scrubTag t2) ↔
        titleOkOld (scrubTag t0) = true ∧ nameOkOld (scrubTag t1) = true) ∧
      (titleOkOld (scrubTag t0) = false →
        parseHeaderInfoOld page
          = .error "AssertionError: title is not schedule of investments") ∧
      (titleOkOld (scrubTag t0) = true → nameOkOld (scrubTag t1) = false →
        parseHeaderInfoOld page = .error "AssertionError: unexpected etf name")) := by
  constructor
  · intro page v t e d hext
    simp only [parseHeaderInfoNew, hext]
    by_cases ht : titleOkNew t = true
    · by_cases hn : nameOkNew e = true
      · simp [ht, hn]
      · simp [ht, hn]
    · simp [ht]
  · intro page t0 t1 t2 restTags hext
    simp only [parseHeaderInfoOld, hext]
    by_cases ht : titleOkOld (scrubTag t0) = true
    · by_cases hn : nameOkOld (scrubTag t1) = true
      · simp [ht, hn]
      · simp [ht, hn]
    · simp [ht]

/-- C5 witness: the demo headers of both generations validate and return the
lower-cased fund name with the report date. -/
theorem c5_header_validation_witness :
    parseHeaderInfoNew demoNewPage 1
      = .ok (lowerStr (str "iShares® Russell 3000 ETF"), str "March 31, 2015") ∧
    parseHeaderInfoOld demoOldPage
      = .ok (lowerStr (scrubTag (str "iShares® Russell 3000 Index Fund")),
             scrubTag (str "March 31, 2005")) :=
  ⟨((c5_header_validation.1 demoNewPage 1
        (str "Schedule of Investments (unaudited)")
        (str "iShares® Russell 3000 ETF") (str "March 31, 2015")
        (by decide)).1).mpr (by decide),
   ((c5_header_validation.2 demoOldPage
        (str "Schedule of Investments")
        (str "iShares® Russell 3000 Index Fund") (str "March 31, 2005") []
        (by decide)).1).mpr (by decide)⟩

/-- C5 counterexample: the legacy header check is a prefix match, so a fund
name that merely extends the accepted spelling — and is not one of the
accepted spellings — passes without a fatal validation error, contrary to
the claimed "if and only if". -/
theorem c5_counterexample :
    parseHeaderInfoOld c5Page
      = .ok (str "ishares® russell 3000 index fund bonus", str "March 31, 2005") ∧
    lowerStr (str "iShares® Russell 3000 Index Fund Bonus")
        ≠ str "ishares® russell 3000 etf" ∧
    lowerStr (str "iShares® Russell 3000 Index Fund Bonus")
        ≠ str "ishares® russell 3000 index fund" ∧
    lowerStr (str "iShares® Russell 3000 Index Fund Bonus")
        ≠ str "ishares russell 3000 index fund" :=
  ⟨rfl, by decide, by decide, by decide⟩

/-! ## C6: cross-page header agreement -/

/-- C6 (amended): in the modern generation the aggregation loop checks each
consecutive pair of per-page headers, so a successful aggregation implies
every page's `etf_name` and `report_date` agree; the legacy generation reads
the header of the first page only and never compares later pages (see the
counterexample). -/
theorem c6_header_agreement :
    ∀ (results : List PageResult) (out : List Holding × TotalsMap × DerivedMap × Int),
      aggLoopNew none [] [] [] 0 results = .ok out →
      ∀ r ∈ results, ∀ r' ∈ results,
        r.etfName = r'.etfName ∧ r.reportDate = r'.reportDate := by
  intro results out hok r hr r' hr'
  cases results with
  | nil => simp at hr
  | cons r0 rest =>
    rw [aggLoopNew] at hok
    rw [if_pos (show headerMatches none r0 = true from rfl)] at hok
    cases hagg : aggHoldsNew r0.holdings [] [] 0 with
    | error e => rw [hagg] at hok; exact absurd hok (by simp)
    | ok out2 =>
      rcases out2 with ⟨hs2, dsec2, dcom2⟩
      rw [hagg] at hok
      have hanchor := aggLoopNew_anchor rest r0.etfName r0.reportDate _ _ _ _ _ hok
      have hall : ∀ u ∈ r0 :: rest,
          u.etfName = r0.etfName ∧ u.reportDate = r0.reportDate := by
        intro u hu
        rcases List.mem_cons.mp hu with he | hm
        · subst he; exact ⟨rfl, rfl⟩
        · exact hanchor u hm
      obtain ⟨h1, h2⟩ := hall r hr
      obtain ⟨h3, h4⟩ := hall r' hr'
      exact ⟨h1.trans h3.symm, h2.trans h4.symm⟩

/-- C6 witness: a two-page aggregation with agreeing headers, instantiating
the agreement conclusion for the two page results. -/
theorem c6_header_agreement_witness :
    (⟨str "f", str "d", [], [], false, none⟩ : PageResult).etfName
        = (⟨str "f", str "d", [], [], true, some (str "x")⟩ : PageResult).etfName ∧
    (⟨str "f", str "d", [], [], false, none⟩ : PageResult).reportDate
        = (⟨str "f", str "d", [], [], true, some (str "x")⟩ : PageResult).reportDate :=
  c6_header_agreement
    [⟨str "f", str "d", [], [], false, none⟩,
     ⟨str "f", str "d", [], [], true, some (str "x")⟩]
    ([], [], [], 0) rfl
    ⟨str "f", str "d", [], [], false, none⟩ (by simp)
    ⟨str "f", str "d", [], [], true, some (str "x")⟩ (by simp)

/-- C6 counterexample: a legacy filing with two relevant pages whose headers
carry different report dates parses successfully — the agreement is neither
checked nor implied, contrary to the claim. -/
theorem c6_counterexample :
    parseFilingOldFull [c6PageA, c6PageB]
      = .ok (⟨str "ishares® russell 3000 index fund", str "March 31, 2005",
              [⟨some (str "Technology"), str "Acme", some 100, some 10⟩]⟩,
             [(str "Technology", some 10), (str "Total Common Stocks", some 10)]) ∧
    parseHeaderInfoOld c6PageA
      = .ok (str "ishares® russell 3000 index fund", str "March 31, 2005") ∧
    parseHeaderInfoOld c6PageB
      = .ok (str "ishares® russell 3000 index fund", str "June 30, 2099") ∧
    str "March 31, 2005" ≠ str "June 30, 2099" :=
  ⟨rfl, rfl, rfl, by decide⟩

/-! ## C1: totals reconciliation -/

/-- C1: for every filing for which `parse_filing` returns a result, the
reported "Total Common Stocks" grand total equals the sum of all holding
values (null values as zero), and every other reported sector subtotal
equals the sum of the values of the holdings whose normalized sector label
equals that subtotal's normalized sector — in the modern generation holding
labels are normalized during aggregation and subtotal keys at the check; in
the legacy generation both were already normalized at classification time,
so they are compared directly.  By contraposition, a failed equality aborts
the parse with no result.  Holds in both format generations. -/
theorem c1_reconciliation :
    (∀ (pages : List PageNew) (f : Filing) (totals : TotalsMap)
       (dsec : DerivedMap) (dcom : Int),
      parseFilingNewFull pages = .ok (f, totals, dsec, dcom) →
      alookup totals tcsKey = some (some (sumVals f.holdings)) ∧
      ∀ kv ∈ aerase totals tcsKey,
        kv.2 = some (sectorSum f.holdings (normalizeSectorNew kv.1))) ∧
    (∀ (pages : List PageOld) (f : Filing) (totals : TotalsMap),
      parseFilingOldFull pages = .ok (f, totals) →
      alookup totals tcsKey = some (some (sumVals f.holdings)) ∧
      ∀ kv ∈ aerase totals tcsKey,
        kv.2 = some (sectorSum f.holdings kv.1)) := by
  constructor
  · intro pages f totals dsec dcom hok
    cases pages with
    | nil => exact absurd hok (by simp [parseFilingNewFull])
    | cons p0 prest =>
      rw [parseFilingNewFull] at hok
      cases hv : getSubversion p0 with
      | error e => simp only [hv] at hok; exact absurd hok (by simp)
      | ok version =>
        simp only [hv] at hok
        cases hfl : filingLoopNew version true none [] (p0 :: prest) with
        | error e => simp only [hfl] at hok; exact absurd hok (by simp)
        | ok results =>
          simp only [hfl] at hok
          cases hagg : aggLoopNew none [] [] [] 0 results with
          | error e => simp only [hagg] at hok; exact absurd hok (by simp)
          | ok out =>
            rcases out with ⟨hs, totals0, dsec0, dcom0⟩
            simp only [hagg] at hok
            cases hval : validateNew totals0 dsec0 dcom0 with
            | error e => simp only [hval] at hok; exact absurd hok (by simp)
            | ok u =>
              simp only [hval] at hok
              cases results with
              | nil => simp at hok
              | cons r0 rrest =>
                simp only [Except.ok.injEq, Prod.mk.injEq] at hok
                obtain ⟨hf, htot, hdsec, hdcom⟩ := hok
                subst htot
                subst hdsec
                subst hdcom
                have hhold : f.holdings = hs := by rw [← hf]
                obtain ⟨hdc, hds⟩ :=
                  aggLoopNew_spec _ _ _ _ _ _ _ _ _ _ hagg rfl (fun sname => rfl)
                rw [validateNew] at hval
                cases hlk : alookup totals0 tcsKey with
                | none => simp only [hlk] at hval; exact absurd hval (by simp)
                | some reported =>
                  simp only [hlk] at hval
                  by_cases heq : optEqInt reported dcom0 = true
                  · rw [if_pos heq] at hval
                    have hrep : reported = some dcom0 := optEqInt_true heq
                    constructor
                    · rw [hrep, hdc, hhold]
                    · intro kv hkv
                      obtain ⟨dv, hdv, hkv2⟩ :=
                        checkSectorsNew_ok _ _ hval kv hkv
                      have hdval : agetD dsec0 (normalizeSectorNew kv.1) = dv := by
                        rw [agetD, hdv]
                        rfl
                      rw [hkv2, hhold, ← hds (normalizeSectorNew kv.1), hdval]
                  · rw [if_neg heq] at hval
                    exact absurd hval (by simp)
  · intro pages f totals hok
    cases pages with
    | nil => exact absurd hok (by simp [parseFilingOldFull])
    | cons p0 prest =>
      rw [parseFilingOldFull] at hok
      cases hh : parseHeaderInfoOld p0 with
      | error e => simp only [hh] at hok; exact absurd hok (by simp)
      | ok hd =>
        rcases hd with ⟨etf, date⟩
        simp only [hh] at hok
        cases hpl : oldPagesLoop true none [] (p0 :: prest) with
        | error e => simp only [hpl] at hok; exact absurd hok (by simp)
        | ok results =>
          simp only [hpl] at hok
          cases hval : validateOld ((results.map (fun r => r.holdings)).flatten)
              (results.foldl (fun d r => amerge d r.sectorTotals) []) with
          | error e => simp only [hval] at hok; exact absurd hok (by simp)
          | ok u =>
            simp only [hval] at hok
            simp only [Except.ok.injEq, Prod.mk.injEq] at hok
            obtain ⟨hf, htot⟩ := hok
            subst htot
            have hhold :
                f.holdings = (results.map (fun r => r.holdings)).flatten := by
              rw [← hf]
            rw [validateOld] at hval
            by_cases hemp : (results.map (fun r => r.holdings)).flatten = []
            · rw [if_pos hemp] at hval
              exact absurd hval (by simp)
            · rw [if_neg hemp] at hval
              cases hlk :
                  alookup (results.foldl (fun d r => amerge d r.sectorTotals) [])
                    tcsKey with
              | none => simp only [hlk] at hval; exact absurd hval (by simp)
              | some reported =>
                simp only [hlk] at hval
                by_cases heq :
                    optEqInt reported
                      (sumVals ((results.map (fun r => r.holdings)).flatten)) = true
                · rw [if_pos heq] at hval
                  constructor
                  · rw [optEqInt_true heq, hhold]
                  · intro kv hkv
                    have hck := checkSectorsOld_ok _ _ hval kv hkv
                    rw [hck, hhold]
                · rw [if_neg heq] at hval
                  exact absurd hval (by simp)

/-- C1 witness: the demo filings of both generations reconcile — the
recorded grand total is the derived sum and the per-sector subtotal is the
per-sector derived sum. -/
theorem c1_reconciliation_witness :
    (alookup demoNewTotals tcsKey = some (some (sumVals demoNewFiling.holdings)) ∧
      (str "Technology", (some 50000 : Option Int)).2
        = some (sectorSum demoNewFiling.holdings
            (normalizeSectorNew (str "Technology")))) ∧
    (alookup demoOldTotals tcsKey = some (some (sumVals demoOldFiling.holdings)) ∧
      (str "Consumer Staples", (some 10 : Option Int)).2
        = some (sectorSum demoOldFiling.holdings (str "Consumer Staples"))) :=
  ⟨⟨(c1_reconciliation.1 [demoNewPage] demoNewFiling demoNewTotals demoNewDsec
        50000 rfl).1,
    (c1_reconciliation.1 [demoNewPage] demoNewFiling demoNewTotals demoNewDsec
        50000 rfl).2 (str "Technology", some 50000) (by decide)⟩,
   ⟨(c1_reconciliation.2 [demoOldPage] demoOldFiling demoOldTotals rfl).1,
    (c1_reconciliation.2 [demoOldPage] demoOldFiling demoOldTotals rfl).2
      (str "Consumer Staples", some 10) (by decide)⟩⟩

end R3k
